import Mathlib

/-! Embedding of the game state from `rng_viz/ui/app.py`. `random.choice`,
`random.uniform` and `time.time` are inputs of `start_new_turn`. -/

namespace RngViz

section Defs

variable {α : Type} [LinearOrderedField α]

/-- The transcendental numeric routines the analyzer calls out to:
`math.sqrt`, `scipy.stats.norm.cdf`, and `scipy.stats.chi2.cdf` at the
fixed 255 degrees of freedom. -/
structure NumOps (α : Type) where
  sqrt : α → α
  normCdf : α → α
  chi2cdf255 : α → α

/-- The `AnomalyResult` NamedTuple from `stats.py`. -/
structure AnomalyResult (α : Type) where
  position : ℕ
  z_score : α
  p_value : α
  significance_level : String
  test_type : String
deriving DecidableEq

/-- The `StatisticalWindow` dataclass: a `deque(maxlen=window_size)` of bytes. -/
structure StatisticalWindow where
  window_size : ℕ
  data : List ℕ
deriving DecidableEq

/-- The `StatisticalWindow.add_byte`: `deque.append` with `maxlen` semantics —
append on the right, then evict from the left anything beyond capacity. -/
def StatisticalWindow.add_byte (w : StatisticalWindow) (byte_val : ℕ) : StatisticalWindow :=
  let d := w.data ++ [byte_val]
  { w with data := d.drop (d.length - w.window_size) }

/-- The `StatisticalWindow.is_full`: `len(self.data) == self.window_size`. -/
def StatisticalWindow.is_full (w : StatisticalWindow) : Bool :=
  w.data.length == w.window_size

/-- The 8 bits of one byte, least-significant first: `(byte >> i) & 1`
for `i = 0..7`. -/
def StatisticalWindow.byteBits (byte_val : ℕ) : List ℕ :=
  (List.range 8).map (fun i => byte_val >>> i &&& 1)

/-- The `StatisticalWindow.get_bits`: all bits of all stored bytes, in
insertion order, each byte expanded LSB-first. -/
def StatisticalWindow.get_bits (w : StatisticalWindow) : List ℕ :=
  (w.data.map byteBits).flatten

/-- The fresh window a `RandomnessAnalyzer` starts with. -/
def emptyWindow (window_size : ℕ) : StatisticalWindow :=
  { window_size := window_size, data := [] }

/-- Feeding a list of bytes to a window, oldest first. -/
def pushAll (w : StatisticalWindow) (bs : List ℕ) : StatisticalWindow :=
  bs.foldl StatisticalWindow.add_byte w

/-- The last `n` elements of a list (what a `deque(maxlen=n)` retains). -/
def lastN (n : ℕ) (l : List ℕ) : List ℕ :=
  l.drop (l.length - n)

/-- The `self.significance_levels`: the insertion-ordered dict
`{0.001: "***", 0.01: "**", 0.05: "*", 1.0: ""}` as the ordered
association list Python ≥3.7 iterates it as. -/
def significance_levels : List (α × String) :=
  [((1:α)/1000, "***"), ((1:α)/100, "**"), ((1:α)/20, "*"), ((1:α), "")]

/-- The `for threshold, symbol in ...: if p_value < threshold: return symbol`
loop of `_get_significance_level`. -/
def sigScan : List (α × String) → α → String
  | [], _ => ""
  | (threshold, symbol) :: rest, p =>
    if p < threshold then symbol else sigScan rest p

/-- The `RandomnessAnalyzer._get_significance_level`. -/
def get_significance_level (p_value : α) : String :=
  sigScan significance_levels p_value

/-- The `RandomnessAnalyzer` object state. -/
structure RandomnessAnalyzer (α : Type) where
  window_size : ℕ
  sensitivity : α
  window : StatisticalWindow
  position : ℕ
  anomalies : List (AnomalyResult α)

/-- The `RandomnessAnalyzer.__init__`. -/
def mkAnalyzer (window_size : ℕ) (sensitivity : α) : RandomnessAnalyzer α :=
  { window_size := window_size
    sensitivity := sensitivity
    window := emptyWindow window_size
    position := 0
    anomalies := [] }

/-- The frequency (monobit) test statistic computation of
`_test_frequency`, up to but not including the sensitivity gate. -/
def freqCandidate (ops : NumOps α) (w : StatisticalWindow) (pos : ℕ) :
    AnomalyResult α :=
  let bits := w.get_bits
  let n_bits : α := (bits.length : α)
  let n_ones : α := (bits.sum : α)
  let expected_p : α := 1/2
  let p_hat := n_ones / n_bits
  let se := ops.sqrt (expected_p * (1 - expected_p) / n_bits)
  let z_score := (p_hat - expected_p) / se
  let p_value := 2 * (1 - ops.normCdf |z_score|)
  { position := pos, z_score := z_score, p_value := p_value
    significance_level := get_significance_level p_value
    test_type := "frequency" }

/-- The `RandomnessAnalyzer._test_frequency`. -/
def test_frequency (ops : NumOps α) (sensitivity : α) (w : StatisticalWindow)
    (pos : ℕ) : List (AnomalyResult α) :=
  let c := freqCandidate ops w pos
  if c.p_value < sensitivity then [c] else []

/-- The `runs = 1; for i in 1..len: if bits[i] != bits[i-1]: runs += 1`
loop of `_test_runs`. -/
def countRuns : List ℕ → ℕ
  | [] => 1
  | [_] => 1
  | a :: b :: rest => (if b ≠ a then 1 else 0) + countRuns (b :: rest)

/-- The `expected_runs = (2 * n_ones * n_zeros) / n + 1` over a bit list. -/
def runsExpected (bits : List ℕ) : α :=
  2 * (bits.sum : α) * ((bits.length : α) - (bits.sum : α)) /
    (bits.length : α) + 1

/-- The `variance = 2*n1*n0*(2*n1*n0 − n) / (n*n*(n−1))` over a bit list. -/
def runsVariance (bits : List ℕ) : α :=
  2 * (bits.sum : α) * ((bits.length : α) - (bits.sum : α)) *
      (2 * (bits.sum : α) * ((bits.length : α) - (bits.sum : α)) -
        (bits.length : α)) /
    ((bits.length : α) * (bits.length : α) * ((bits.length : α) - 1))

/-- The runs (Wald–Wolfowitz) test statistic computation of `_test_runs`,
up to but not including the sensitivity gate; `none` on any of the
degenerate skips (`len(bits) < 2`, all bits equal, `variance <= 0`). -/
def runsCandidate (ops : NumOps α) (w : StatisticalWindow) (pos : ℕ) :
    Option (AnomalyResult α) :=
  let bits := w.get_bits
  if bits.length < 2 then none
  else
    let runs := countRuns bits
    let n : α := (bits.length : α)
    let n_ones : α := (bits.sum : α)
    let n_zeros : α := n - n_ones
    if n_ones = 0 ∨ n_zeros = 0 then none
    else
      let expected_runs := runsExpected bits
      let variance := runsVariance bits
      if variance ≤ 0 then none
      else
        let z_score := ((runs : α) - expected_runs) / ops.sqrt variance
        let p_value := 2 * (1 - ops.normCdf |z_score|)
        some { position := pos, z_score := z_score, p_value := p_value
               significance_level := get_significance_level p_value
               test_type := "runs" }

/-- The `RandomnessAnalyzer._test_runs`. -/
def test_runs (ops : NumOps α) (sensitivity : α) (w : StatisticalWindow)
    (pos : ℕ) : List (AnomalyResult α) :=
  match runsCandidate ops w pos with
  | none => []
  | some c => if c.p_value < sensitivity then [c] else []

/-- The chi-square statistic of `_test_chi_square`:
`np.bincount` histogram against the uniform expectation. -/
def chi2stat (w : StatisticalWindow) : α :=
  let expected_freq : α := (w.data.length : α) / 256
  ((List.range 256).map
    (fun v => ((w.data.count v : α) - expected_freq) ^ 2 / expected_freq)).sum

/-- The chi-square uniformity test computation of `_test_chi_square`, up
to but not including the sensitivity gate; `none` when the window holds
fewer than 50 bytes. -/
def chiCandidate (ops : NumOps α) (w : StatisticalWindow) (pos : ℕ) :
    Option (AnomalyResult α) :=
  if w.data.length < 50 then none
  else
    let chi2 : α := chi2stat w
    let dof : α := 255
    let p_value := 1 - ops.chi2cdf255 chi2
    let z_score := (chi2 - dof) / ops.sqrt (2 * dof)
    some { position := pos, z_score := z_score, p_value := p_value
           significance_level := get_significance_level p_value
           test_type := "chi_square" }

/-- The `RandomnessAnalyzer._test_chi_square`. -/
def test_chi_square (ops : NumOps α) (sensitivity : α) (w : StatisticalWindow)
    (pos : ℕ) : List (AnomalyResult α) :=
  match chiCandidate ops w pos with
  | none => []
  | some c => if c.p_value < sensitivity then [c] else []

/-- The `RandomnessAnalyzer.add_byte`: push, bump position, and when the
window is full run the three tests in order. -/
def add_byte (ops : NumOps α) (a : RandomnessAnalyzer α) (byte_val : ℕ) :
    RandomnessAnalyzer α × List (AnomalyResult α) :=
  let a' := { a with window := a.window.add_byte byte_val
                     position := a.position + 1 }
  let results :=
    if a'.window.is_full then
      test_frequency ops a'.sensitivity a'.window a'.position ++
      test_runs ops a'.sensitivity a'.window a'.position ++
      test_chi_square ops a'.sensitivity a'.window a'.position
    else []
  (a', results)

/-- Feed a list of bytes in order, collecting all returned anomalies. -/
def feed (ops : NumOps α) (a : RandomnessAnalyzer α) (bs : List ℕ) :
    RandomnessAnalyzer α × List (AnomalyResult α) :=
  bs.foldl (fun acc b =>
    let (a', rs) := add_byte ops acc.1 b
    (a', acc.2 ++ rs)) (a, [])

/-- The summary-statistics record of `get_summary_stats`. -/
structure SummaryStats (α : Type) where
  total_bits : ℕ
  ones_count : ℕ
  zeros_count : ℕ
  ones_ratio : α
  byte_mean : α
  byte_std : α
  total_anomalies : ℕ
  current_position : ℕ
deriving DecidableEq

/-- The `RandomnessAnalyzer.get_summary_stats`: `none` models the `{}`
returned while the window is not yet full. -/
def get_summary_stats (ops : NumOps α) (a : RandomnessAnalyzer α) :
    Option (SummaryStats α) :=
  if a.window.is_full then
    let bits := a.window.get_bits
    let byte_values := a.window.data
    let mean : α := (byte_values.sum : α) / (byte_values.length : α)
    let var : α :=
      (byte_values.map (fun b => ((b : α) - mean) ^ 2)).sum /
        (byte_values.length : α)
    some { total_bits := bits.length
           ones_count := bits.sum
           zeros_count := bits.length - bits.sum
           ones_ratio := (bits.sum : α) / (bits.length : α)
           byte_mean := mean
           byte_std := ops.sqrt var
           total_anomalies := a.anomalies.length
           current_position := a.position }
  else none

/-- The three per-window test candidates, in the fixed evaluation order
frequency, runs, chi-square, before the sensitivity gate. -/
def candidates (ops : NumOps α) (w : StatisticalWindow) (pos : ℕ) :
    List (AnomalyResult α) :=
  [freqCandidate ops w pos] ++ (runsCandidate ops w pos).toList ++
    (chiCandidate ops w pos).toList

/-- Discrete strength of a significance tier: `"***"` > `"**"` > `"*"` > `""`. -/
def tierRank (s : String) : ℕ :=
  if s = "***" then 3 else if s = "**" then 2 else if s = "*" then 1 else 0

/-- Modelled from the spec's words, for comparison with the code's scan:
the symbol of the first tier, scanned ascending by threshold, whose
threshold strictly exceeds the p-value, defaulting to the empty tier. -/
def sigSpecFirstMatch (p : α) : String :=
  (((significance_levels (α := α)).find? fun ts => decide (p < ts.1)).map
    Prod.snd).getD ""

/-- The `CaptureMetadata` dataclass; `device_info` is a JSON object, modelled
as an association list. -/
structure CaptureMetadata where
  timestamp : String
  device_info : List (String × String)
  window_size : ℤ
  sensitivity : ℚ
  total_bytes : ℤ
  total_anomalies : ℤ
  duration_seconds : ℚ
deriving DecidableEq

/-- The `BitstreamRecord` dataclass. -/
structure BitstreamRecord where
  position : ℤ
  timestamp : ℚ
  byte_value : ℤ
  anomaly_type : Option String := none
  z_score : Option ℚ := none
  p_value : Option ℚ := none
  significance : Option String := none
deriving DecidableEq

/-- The numeric ↔ string conversions of the Python runtime (`str`,
`int`, `float`), passed in abstractly. -/
structure FieldCodecs where
  intStr : ℤ → String
  floatStr : ℚ → String
  parseInt : String → Option ℤ
  parseFloat : String → Option ℚ

/-- The `csv.DictWriter.writerow(asdict(record))`: a `None` optional field
is written as the empty cell. -/
def optCell : Option String → String
  | none => ""
  | some s => s

def optFloatCell (c : FieldCodecs) : Option ℚ → String
  | none => ""
  | some x => c.floatStr x

/-- The `BitstreamWriter.write_record`: the 7 cells of one CSV row, in the
fixed header order. -/
def write_record (c : FieldCodecs) (r : BitstreamRecord) : List String :=
  [c.intStr r.position, c.floatStr r.timestamp, c.intStr r.byte_value,
    optCell r.anomaly_type, optFloatCell c r.z_score,
    optFloatCell c r.p_value, optCell r.significance]

/-- The per-row body of `BitstreamReader.iter_records`: numeric fields
are converted with `int`/`float` (failure aborts), optional fields are
`None` exactly when the cell is empty. -/
def parse_record (c : FieldCodecs) (row : List String) :
    Option BitstreamRecord :=
  match row with
  | [p, t, b, at_, z, pv, sg] => do
    let position ← c.parseInt p
    let timestamp ← c.parseFloat t
    let byte_value ← c.parseInt b
    let anomaly_type := if at_ = "" then none else some at_
    let z_score ← if z = "" then some none else (c.parseFloat z).map some
    let p_value ← if pv = "" then some none else (c.parseFloat pv).map some
    let significance := if sg = "" then none else some sg
    some { position := position, timestamp := timestamp
           byte_value := byte_value, anomaly_type := anomaly_type
           z_score := z_score, p_value := p_value
           significance := significance }
  | _ => none

def isStripChar (c : Char) : Bool :=
  c == ' ' || c == '\t' || c == '\n' || c == '\r'

/-- Python `str.strip()`. -/
def pyStrip (l : List Char) : List Char :=
  ((l.dropWhile isStripChar).reverse.dropWhile isStripChar).reverse

/-- Python `str.startswith`. -/
def pyStartsWith (l pre : List Char) : Bool :=
  pre.isPrefixOf l

/-- The `BitstreamReader.load_metadata` applied to the file's first line. -/
def load_metadata (parseMeta : List Char → Option CaptureMetadata)
    (first_line : List Char) : Except String CaptureMetadata :=
  let stripped := pyStrip first_line
  if pyStartsWith stripped ['#', ' '] then
    match parseMeta (stripped.drop 2) with
    | some m => Except.ok m
    | none => Except.error "invalid metadata JSON"
  else Except.error "File does not contain metadata header"

/-- Holds exactly on the failing (`raise`) outcomes. -/
def metadataFails : Except String CaptureMetadata → Bool
  | Except.error _ => true
  | Except.ok _ => false

/-- The `BucketScores` dataclass: the six (tier × direction) counters. -/
structure BucketScores where
  red_up : ℕ := 0
  orange_up : ℕ := 0
  yellow_up : ℕ := 0
  red_down : ℕ := 0
  orange_down : ℕ := 0
  yellow_down : ℕ := 0
deriving DecidableEq

/-- The `GameTurn` dataclass. -/
structure GameTurn (α : Type) where
  instruction : String
  duration : α
  start_time : α
  scores : BucketScores := {}
deriving DecidableEq

/-- The `GameState` dataclass. -/
structure GameState (α : Type) where
  current_turn : Option (GameTurn α) := none
  turn_history : List (GameTurn α) := []
  is_finished : Bool := false
deriving DecidableEq

/-- The `GameState.start_new_turn`, with the randomly drawn instruction and
duration and the current clock passed in: archives the current turn (if
any) and installs the fresh one — note there is no `is_finished` guard. -/
def start_new_turn (s : GameState α) (instruction : String) (duration now : α) :
    GameState α :=
  let history := (match s.current_turn with
    | some t => s.turn_history ++ [t]
    | none => s.turn_history)
  let t : GameTurn α :=
    { instruction := instruction, duration := duration, start_time := now }
  { s with current_turn := some t, turn_history := history }

/-- The `GameState.add_anomaly`: ignored without an active turn or once
finished; otherwise buckets by (significance tier, z-score sign). -/
def add_anomaly (s : GameState α) (anomaly : AnomalyResult α) : GameState α :=
  match s.current_turn with
  | none => s
  | some turn =>
    if s.is_finished then s
    else
      let scores := turn.scores
      let is_up := 0 < anomaly.z_score
      let scores' :=
        if anomaly.significance_level = "***" then
          if is_up then { scores with red_up := scores.red_up + 1 }
          else { scores with red_down := scores.red_down + 1 }
        else if anomaly.significance_level = "**" then
          if is_up then { scores with orange_up := scores.orange_up + 1 }
          else { scores with orange_down := scores.orange_down + 1 }
        else if anomaly.significance_level = "*" then
          if is_up then { scores with yellow_up := scores.yellow_up + 1 }
          else { scores with yellow_down := scores.yellow_down + 1 }
        else scores
      { s with current_turn := some { turn with scores := scores' } }

/-- The `GameState.finish_game`: archives the active turn and sets the
terminal flag. -/
def finish_game (s : GameState α) : GameState α :=
  match s.current_turn with
  | some t =>
    { current_turn := none, turn_history := s.turn_history ++ [t]
      is_finished := true }
  | none => { s with is_finished := true }

/-- The `GameState.get_overall_stats`: the running-total loop over
`turn_history`. -/
def get_overall_stats (s : GameState α) : BucketScores :=
  s.turn_history.foldl (fun total turn =>
    { red_up := total.red_up + turn.scores.red_up
      orange_up := total.orange_up + turn.scores.orange_up
      yellow_up := total.yellow_up + turn.scores.yellow_up
      red_down := total.red_down + turn.scores.red_down
      orange_down := total.orange_down + turn.scores.orange_down
      yellow_down := total.yellow_down + turn.scores.yellow_down }) {}

/-- The per-field sums over the archived history, as the spec describes
the aggregate. -/
def historySums (h : List (GameTurn α)) : BucketScores :=
  { red_up := (h.map fun t => t.scores.red_up).sum
    orange_up := (h.map fun t => t.scores.orange_up).sum
    yellow_up := (h.map fun t => t.scores.yellow_up).sum
    red_down := (h.map fun t => t.scores.red_down).sum
    orange_down := (h.map fun t => t.scores.orange_down).sum
    yellow_down := (h.map fun t => t.scores.yellow_down).sum }

/-- Constant codecs agreeing with Python `str`/`int`/`float` at the
value `0`. -/
def zeroCodecs : FieldCodecs :=
  { intStr := fun _ => "0", floatStr := fun _ => "0"
    parseInt := fun _ => some 0, parseFloat := fun _ => some 0 }

/-- The JSON body of a complete, well-formed metadata header, and the
metadata object Python would parse from it. -/
def sampleHeaderJson : List Char :=
  ("\x7b\"timestamp\": \"t\", \"device_info\": \x7b\x7d, \"window_size\": 10, " ++
    "\"sensitivity\": 1, \"total_bytes\": 0, \"total_anomalies\": 0, " ++
    "\"duration_seconds\": 0\x7d").toList

def sampleMeta : CaptureMetadata :=
  { timestamp := "t", device_info := [], window_size := 10
    sensitivity := 1, total_bytes := 0, total_anomalies := 0
    duration_seconds := 0 }

/-- A metadata parser consistent with `json.loads` +
`CaptureMetadata.from_dict` on the sample header. -/
def sampleParseMeta : List Char → Option CaptureMetadata :=
  fun s => if s = sampleHeaderJson then some sampleMeta else none

/-- The numeric routines of the scenarios: exact square root and CDFs
saturated at `1`, as scipy's double-precision CDFs return at the huge
statistics these windows produce. -/
noncomputable def tailOps : NumOps ℝ :=
  { sqrt := Real.sqrt, normCdf := fun _ => 1, chi2cdf255 := fun _ => 1 }

/-- Scenario B's byte stream: 50 bytes alternating `0x00` / `0xFF`. -/
def altBytes : List ℕ :=
  (List.range 50).map (fun i => if i % 2 = 0 then 0 else 255)

end Defs

section Thms

variable {α : Type} [LinearOrderedField α]

set_option maxRecDepth 8000

theorem lastN_of_le {n : ℕ} {l : List ℕ} (h : l.length ≤ n) : lastN n l = l := by
  simp [lastN, Nat.sub_eq_zero_of_le h]

theorem lastN_length_le (n : ℕ) (l : List ℕ) : (lastN n l).length ≤ n := by
  simp only [lastN, List.length_drop]
  omega

theorem lastN_eq_rtake (n : ℕ) (l : List ℕ) : lastN n l = l.rtake n := rfl

theorem take_append_take (n : ℕ) (a b : List ℕ) :
    (a ++ b.take n).take n = (a ++ b).take n := by
  rw [List.take_append_eq_append_take, List.take_append_eq_append_take,
    List.take_take, Nat.min_eq_left (Nat.sub_le n a.length)]

/-- Taking the last `n` of a list whose front beyond `n` was already
evicted gives the same as taking the last `n` of the original. -/
theorem lastN_append_lastN (n : ℕ) (l xs : List ℕ) :
    lastN n (lastN n l ++ xs) = lastN n (l ++ xs) := by
  simp only [lastN_eq_rtake, List.rtake_eq_reverse_take_reverse,
    List.reverse_append, List.reverse_reverse]
  rw [take_append_take]

/-- One `add_byte` on the window is exactly "keep the last `window_size`
of data ++ [b]". -/
theorem add_byte_data (w : StatisticalWindow) (b : ℕ) :
    (w.add_byte b).data = lastN w.window_size (w.data ++ [b]) := rfl

theorem add_byte_size (w : StatisticalWindow) (b : ℕ) :
    (w.add_byte b).window_size = w.window_size := rfl

theorem pushAll_size (w : StatisticalWindow) (bs : List ℕ) :
    (pushAll w bs).window_size = w.window_size := by
  induction bs generalizing w with
  | nil => rfl
  | cons b bs ih => simpa [pushAll] using ih (w.add_byte b)

/-- Feeding `bs` into a window whose invariant holds leaves exactly the
last `window_size` elements of the concatenated stream. -/
theorem pushAll_data (w : StatisticalWindow) (bs : List ℕ)
    (h : w.data.length ≤ w.window_size) :
    (pushAll w bs).data = lastN w.window_size (w.data ++ bs) := by
  induction bs generalizing w with
  | nil => simp [pushAll, lastN_of_le h]
  | cons b bs ih =>
    have step : pushAll w (b :: bs) = pushAll (w.add_byte b) bs := rfl
    rw [step, ih (w.add_byte b) (by rw [add_byte_data]; exact lastN_length_le _ _)]
    rw [add_byte_size, add_byte_data]
    rw [lastN_append_lastN]
    simp

/-- C3: for any capacity `N` and any `N + k` pushed bytes, the window
holds exactly the `N` most recent bytes in insertion order; its length
never exceeds `N`, and `is_full` holds exactly when the length is `N`. -/
theorem window_keeps_last_N (N k : ℕ) (xs ys : List ℕ)
    (h : xs.length = N + k) :
    (pushAll (emptyWindow N) xs).data = xs.drop k
    ∧ (pushAll (emptyWindow N) ys).data.length ≤ N
    ∧ ((pushAll (emptyWindow N) ys).is_full = true ↔
        (pushAll (emptyWindow N) ys).data.length = N) := by
  have hempty : (emptyWindow N).data.length ≤ N := by simp [emptyWindow]
  refine ⟨?_, ?_, ?_⟩
  · rw [pushAll_data _ _ hempty]
    simp [emptyWindow, lastN, h]
  · rw [pushAll_data _ _ hempty]
    simpa [emptyWindow] using lastN_length_le N ys
  · rw [StatisticalWindow.is_full, pushAll_size]
    simp [emptyWindow]

theorem window_keeps_last_N_witness :
    ([1, 2, 3] : List ℕ).length = 2 + 1
    ∧ ((pushAll (emptyWindow 2) [1, 2, 3]).data = [2, 3]
      ∧ (pushAll (emptyWindow 2) [9]).data.length ≤ 2
      ∧ ((pushAll (emptyWindow 2) [9]).is_full = true ↔
          (pushAll (emptyWindow 2) [9]).data.length = 2)) :=
  ⟨by decide, window_keeps_last_N 2 1 [1, 2, 3] [9] (by decide)⟩

/-- C4: with fewer than 50 bytes stored, the chi-square test is skipped
and returns no anomaly, whatever the byte values, the numeric routines
and the sensitivity. -/
theorem chi_square_skipped_under_50 (ops : NumOps α) (sensitivity : α)
    (w : StatisticalWindow) (pos : ℕ) (h : w.data.length < 50) :
    test_chi_square ops sensitivity w pos = [] := by
  simp [test_chi_square, chiCandidate, h]

theorem chi_square_skipped_under_50_witness :
    (StatisticalWindow.mk 100 [0, 255, 17]).data.length < 50
    ∧ test_chi_square (NumOps.mk id id id) (1 : ℚ)
        (StatisticalWindow.mk 100 [0, 255, 17]) 3 = [] :=
  ⟨by decide, chi_square_skipped_under_50 _ _ _ _ (by decide)⟩

/-- C2: significance classification scans the ascending tier list and
returns the first symbol whose threshold strictly exceeds the p-value
(empty when none matches), and is monotone: a smaller p-value never gets
a weaker tier. -/
theorem significance_monotone_first_match (p₁ p₂ p : α) (h : p₁ < p₂) :
    tierRank (get_significance_level p₂) ≤ tierRank (get_significance_level p₁)
    ∧ get_significance_level p = sigSpecFirstMatch p := by
  constructor
  · simp only [get_significance_level, significance_levels, sigScan]
    split_ifs <;> first | decide | linarith
  · simp only [get_significance_level, significance_levels, sigScan,
      sigSpecFirstMatch, List.find?]
    split_ifs with h1 h2 h3 h4
    · rw [decide_eq_true h1]
      rfl
    · rw [decide_eq_false h1, decide_eq_true h2]
      rfl
    · rw [decide_eq_false h1, decide_eq_false h2, decide_eq_true h3]
      rfl
    · rw [decide_eq_false h1, decide_eq_false h2, decide_eq_false h3,
        decide_eq_true h4]
      rfl
    · rw [decide_eq_false h1, decide_eq_false h2, decide_eq_false h3,
        decide_eq_false h4]
      rfl

theorem significance_monotone_first_match_witness :
    ((1 : ℚ)/200 < 3/100)
    ∧ (tierRank (get_significance_level ((3 : ℚ)/100)) ≤
        tierRank (get_significance_level ((1 : ℚ)/200))
      ∧ get_significance_level ((2 : ℚ)/100) = sigSpecFirstMatch ((2 : ℚ)/100)) :=
  ⟨by norm_num, significance_monotone_first_match _ _ _ (by norm_num)⟩

theorem feed_preserves_anomalies (ops : NumOps α) (a : RandomnessAnalyzer α)
    (bs : List ℕ) : (feed ops a bs).1.anomalies = a.anomalies := by
  suffices h : ∀ p : RandomnessAnalyzer α × List (AnomalyResult α),
      (bs.foldl (fun acc b =>
        let (a', rs) := add_byte ops acc.1 b
        (a', acc.2 ++ rs)) p).1.anomalies = p.1.anomalies by
    exact h (a, [])
  induction bs with
  | nil => intro p; rfl
  | cons b bs ih =>
    intro p
    simpa [List.foldl_cons] using ih (add_byte ops p.1 b |>.1, _)

/-- C10: nothing ever appends to the analyzer's internal `anomalies`
list, so after any stream of bytes it is still empty and, whenever the
window is full, `get_summary_stats` reports `total_anomalies = 0`. -/
theorem total_anomalies_always_zero (ops : NumOps α) (N : ℕ) (s : α)
    (bs : List ℕ)
    (h : (feed ops (mkAnalyzer N s) bs).1.window.is_full = true) :
    (feed ops (mkAnalyzer N s) bs).1.anomalies = []
    ∧ (get_summary_stats ops (feed ops (mkAnalyzer N s) bs).1).map
        (fun st => st.total_anomalies) = some 0 := by
  have han : (feed ops (mkAnalyzer N s) bs).1.anomalies = [] := by
    rw [feed_preserves_anomalies]; rfl
  refine ⟨han, ?_⟩
  unfold get_summary_stats
  rw [if_pos h]
  simp [han]

theorem total_anomalies_always_zero_witness :
    (feed (NumOps.mk id id id) (mkAnalyzer 1 (1 : ℚ)) [5]).1.window.is_full = true
    ∧ ((feed (NumOps.mk id id id) (mkAnalyzer 1 (1 : ℚ)) [5]).1.anomalies = []
      ∧ (get_summary_stats (NumOps.mk id id id)
          (feed (NumOps.mk id id id) (mkAnalyzer 1 (1 : ℚ)) [5]).1).map
            (fun st => st.total_anomalies) = some 0) :=
  ⟨by decide, total_anomalies_always_zero _ _ _ _ (by decide)⟩

theorem runsCandidate_test_type {ops : NumOps α} {w : StatisticalWindow}
    {pos : ℕ} {c : AnomalyResult α} (hrc : runsCandidate ops w pos = some c) :
    c.test_type = "runs" := by
  simp only [runsCandidate] at hrc
  split_ifs at hrc
  rw [← Option.some.inj hrc]

theorem chiCandidate_test_type {ops : NumOps α} {w : StatisticalWindow}
    {pos : ℕ} {c : AnomalyResult α} (hcc : chiCandidate ops w pos = some c) :
    c.test_type = "chi_square" := by
  simp only [chiCandidate] at hcc
  split_ifs at hcc
  rw [← Option.some.inj hcc]

/-- C1: `add_byte` pushes the byte and increments the position; while
the window is not full it returns no anomalies, and once the window is
full it returns exactly the candidates of the three tests — evaluated in
the fixed order frequency, runs, chi-square — whose p-value is strictly
below the configured sensitivity. -/
theorem add_byte_three_tests (ops : NumOps α) (a : RandomnessAnalyzer α)
    (v : ℕ) (hN : 0 < a.window.window_size) :
    (add_byte ops a v).1.position = a.position + 1
    ∧ (add_byte ops a v).1.window = a.window.add_byte v
    ∧ ((add_byte ops a v).1.window.is_full = false → (add_byte ops a v).2 = [])
    ∧ ((add_byte ops a v).1.window.is_full = true →
        (add_byte ops a v).2 =
          (candidates ops (a.window.add_byte v) (a.position + 1)).filter
            (fun r => decide (r.p_value < a.sensitivity))
        ∧ ((add_byte ops a v).2.map (fun r => r.test_type)).Sublist
            ["frequency", "runs", "chi_square"]) := by
  refine ⟨rfl, rfl, ?_, ?_⟩
  · intro hfull
    have hf : (a.window.add_byte v).is_full = false := hfull
    simp [add_byte, hf]
  · intro hfull
    have hf : (a.window.add_byte v).is_full = true := hfull
    have e1 : test_frequency ops a.sensitivity (a.window.add_byte v)
          (a.position + 1) =
        List.filter (fun r => decide (r.p_value < a.sensitivity))
          [freqCandidate ops (a.window.add_byte v) (a.position + 1)] := by
      simp only [test_frequency, List.filter_cons, List.filter_nil,
        decide_eq_true_eq]
    have e2 : test_runs ops a.sensitivity (a.window.add_byte v)
          (a.position + 1) =
        List.filter (fun r => decide (r.p_value < a.sensitivity))
          (runsCandidate ops (a.window.add_byte v) (a.position + 1)).toList := by
      rw [test_runs]
      cases hrc : runsCandidate ops (a.window.add_byte v) (a.position + 1) with
      | none => rfl
      | some c =>
        simp only [Option.toList_some, List.filter_cons, List.filter_nil,
          decide_eq_true_eq]
    have e3 : test_chi_square ops a.sensitivity (a.window.add_byte v)
          (a.position + 1) =
        List.filter (fun r => decide (r.p_value < a.sensitivity))
          (chiCandidate ops (a.window.add_byte v) (a.position + 1)).toList := by
      rw [test_chi_square]
      cases hcc : chiCandidate ops (a.window.add_byte v) (a.position + 1) with
      | none => rfl
      | some c =>
        simp only [Option.toList_some, List.filter_cons, List.filter_nil,
          decide_eq_true_eq]
    have heq : (add_byte ops a v).2 =
        (candidates ops (a.window.add_byte v) (a.position + 1)).filter
          (fun r => decide (r.p_value < a.sensitivity)) := by
      simp only [add_byte]
      rw [if_pos hf, candidates, List.filter_append, List.filter_append,
        e1, e2, e3]
    refine ⟨heq, ?_⟩
    rw [heq, candidates]
    have hsub := List.filter_sublist
      (l := [freqCandidate ops (a.window.add_byte v) (a.position + 1)] ++
        (runsCandidate ops (a.window.add_byte v) (a.position + 1)).toList ++
        (chiCandidate ops (a.window.add_byte v) (a.position + 1)).toList)
      (p := fun r => decide (r.p_value < a.sensitivity))
    refine List.Sublist.trans (List.Sublist.map _ hsub) ?_
    rw [List.map_append, List.map_append]
    have h1 : ([freqCandidate ops (a.window.add_byte v)
        (a.position + 1)].map (fun r => r.test_type)).Sublist ["frequency"] := by
      simp [freqCandidate]
    have h2 : (((runsCandidate ops (a.window.add_byte v)
        (a.position + 1)).toList).map (fun r => r.test_type)).Sublist
          ["runs"] := by
      cases hrc : runsCandidate ops (a.window.add_byte v) (a.position + 1) with
      | none => simp
      | some c => simp [runsCandidate_test_type hrc]
    have h3 : (((chiCandidate ops (a.window.add_byte v)
        (a.position + 1)).toList).map (fun r => r.test_type)).Sublist
          ["chi_square"] := by
      cases hcc : chiCandidate ops (a.window.add_byte v) (a.position + 1) with
      | none => simp
      | some c => simp [chiCandidate_test_type hcc]
    exact List.Sublist.append (List.Sublist.append h1 h2) h3

theorem parse_write_record (c : FieldCodecs) (r : BitstreamRecord)
    (h1 : c.parseInt (c.intStr r.position) = some r.position)
    (h2 : c.parseFloat (c.floatStr r.timestamp) = some r.timestamp)
    (h3 : c.parseInt (c.intStr r.byte_value) = some r.byte_value)
    (hz : ∀ x, r.z_score = some x →
      c.parseFloat (c.floatStr x) = some x ∧ c.floatStr x ≠ "")
    (hp : ∀ x, r.p_value = some x →
      c.parseFloat (c.floatStr x) = some x ∧ c.floatStr x ≠ "")
    (ha : r.anomaly_type ≠ some "")
    (hs : r.significance ≠ some "") :
    parse_record c (write_record c r) = some r := by
  obtain ⟨pos, ts, bv, at_, z, pv, sg⟩ := r
  simp only at h1 h2 h3 hz hp ha hs
  cases at_ <;> cases z <;> cases pv <;> cases sg <;>
    simp_all [parse_record, write_record, optCell, optFloatCell]

/-- C7 (amended): writing a sequence of records and reading the rows
back restores every record field-for-field, provided no present
optional string field is the empty string (a present-but-empty optional
collapses to absent on read); absent optional fields serialize as the
empty cell and are restored as absent. -/
theorem records_write_read_roundtrip (c : FieldCodecs)
    (rs : List BitstreamRecord)
    (hnum : ∀ r ∈ rs, c.parseInt (c.intStr r.position) = some r.position
      ∧ c.parseFloat (c.floatStr r.timestamp) = some r.timestamp
      ∧ c.parseInt (c.intStr r.byte_value) = some r.byte_value)
    (hopt : ∀ r ∈ rs,
      (∀ x, r.z_score = some x →
        c.parseFloat (c.floatStr x) = some x ∧ c.floatStr x ≠ "")
      ∧ (∀ x, r.p_value = some x →
        c.parseFloat (c.floatStr x) = some x ∧ c.floatStr x ≠ "")
      ∧ r.anomaly_type ≠ some "" ∧ r.significance ≠ some "") :
    (rs.map (write_record c)).map (parse_record c) = rs.map some := by
  induction rs with
  | nil => rfl
  | cons r rs ih =>
    obtain ⟨h1, h2, h3⟩ := hnum r (by simp)
    obtain ⟨hz, hp, ha, hs⟩ := hopt r (by simp)
    simp only [List.map_cons]
    rw [parse_write_record c r h1 h2 h3 hz hp ha hs,
      ih (fun r hr => hnum r (by simp [hr])) (fun r hr => hopt r (by simp [hr]))]

/-- C7 counterexample: a record whose `significance` is present but
empty writes the empty cell and reads back as absent, so the claimed
round-trip over *every* record sequence fails. -/
theorem records_roundtrip_counterexample :
    parse_record zeroCodecs (write_record zeroCodecs
        { position := 0, timestamp := 0, byte_value := 0
          significance := some "" }) =
      some { position := 0, timestamp := 0, byte_value := 0
             significance := none }
    ∧ ¬ (({ position := 0, timestamp := 0, byte_value := 0
            significance := none } : BitstreamRecord) =
          { position := 0, timestamp := 0, byte_value := 0
            significance := some "" }) := by
  exact ⟨rfl, by simp⟩

theorem records_write_read_roundtrip_witness :
    (∀ r ∈ [({ position := 0, timestamp := 0, byte_value := 0 } :
        BitstreamRecord)],
      zeroCodecs.parseInt (zeroCodecs.intStr r.position) = some r.position
      ∧ zeroCodecs.parseFloat (zeroCodecs.floatStr r.timestamp) =
          some r.timestamp
      ∧ zeroCodecs.parseInt (zeroCodecs.intStr r.byte_value) =
          some r.byte_value)
    ∧ (∀ r ∈ [({ position := 0, timestamp := 0, byte_value := 0 } :
        BitstreamRecord)],
      (∀ x, r.z_score = some x →
        zeroCodecs.parseFloat (zeroCodecs.floatStr x) = some x
        ∧ zeroCodecs.floatStr x ≠ "")
      ∧ (∀ x, r.p_value = some x →
        zeroCodecs.parseFloat (zeroCodecs.floatStr x) = some x
        ∧ zeroCodecs.floatStr x ≠ "")
      ∧ r.anomaly_type ≠ some "" ∧ r.significance ≠ some "")
    ∧ ([({ position := 0, timestamp := 0, byte_value := 0 } :
          BitstreamRecord)].map (write_record zeroCodecs)).map
        (parse_record zeroCodecs) =
        [({ position := 0, timestamp := 0, byte_value := 0 } :
          BitstreamRecord)].map some := by
  refine ⟨?_, ?_, ?_⟩
  · intro r hr
    simp only [List.mem_singleton] at hr
    subst hr
    exact ⟨rfl, rfl, rfl⟩
  · intro r hr
    simp only [List.mem_singleton] at hr
    subst hr
    exact ⟨by simp, by simp, by simp, by simp⟩
  · exact records_write_read_roundtrip zeroCodecs _
      (by intro r hr; simp only [List.mem_singleton] at hr; subst hr
          exact ⟨rfl, rfl, rfl⟩)
      (by intro r hr; simp only [List.mem_singleton] at hr; subst hr
          exact ⟨by simp, by simp, by simp, by simp⟩)

/-- C8 (amended): `load_metadata` fails whenever the *stripped* first
line does not start with `"# "`, and succeeds exactly when the stripped
first line is `"# "` followed by text the JSON metadata parser accepts
— never returning partial metadata. (The raw first line may carry
leading whitespace that Python's `strip()` removes before the prefix
check.) -/
theorem load_metadata_header_gate
    (parseMeta : List Char → Option CaptureMetadata)
    (first_line : List Char)
    (h : pyStartsWith (pyStrip first_line) ['#', ' '] = false) :
    metadataFails (load_metadata parseMeta first_line) = true
    ∧ (∀ line₂ : List Char, ∀ m₂ : CaptureMetadata,
        load_metadata parseMeta line₂ = Except.ok m₂ ↔
          (pyStartsWith (pyStrip line₂) ['#', ' '] = true
            ∧ parseMeta ((pyStrip line₂).drop 2) = some m₂)) := by
  constructor
  · simp [load_metadata, metadataFails, h]
  · intro line₂ m₂
    simp only [load_metadata]
    cases hpre : pyStartsWith (pyStrip line₂) ['#', ' '] with
    | false => simp [hpre]
    | true =>
      cases hm : parseMeta ((pyStrip line₂).drop 2) with
      | none => simp [hpre, hm]
      | some m₃ => simp [hpre, hm]

/-- C8 counterexample: a first line with leading whitespace does not
start with `"# "`, yet `load_metadata` succeeds, because Python strips
the line before the prefix check. -/
theorem load_metadata_counterexample :
    pyStartsWith (' ' :: '#' :: ' ' :: sampleHeaderJson) ['#', ' '] = false
    ∧ load_metadata sampleParseMeta (' ' :: '#' :: ' ' :: sampleHeaderJson) =
        Except.ok sampleMeta := by
  constructor
  · decide
  · rfl

theorem load_metadata_header_gate_witness :
    pyStartsWith (pyStrip "no header".toList) ['#', ' '] = false
    ∧ (metadataFails (load_metadata sampleParseMeta "no header".toList) = true
      ∧ (∀ line₂ : List Char, ∀ m₂ : CaptureMetadata,
          load_metadata sampleParseMeta line₂ = Except.ok m₂ ↔
            (pyStartsWith (pyStrip line₂) ['#', ' '] = true
              ∧ sampleParseMeta ((pyStrip line₂).drop 2) = some m₂))) :=
  ⟨by decide, load_metadata_header_gate sampleParseMeta _ (by decide)⟩

theorem get_overall_stats_eq_sums (s : GameState α) :
    get_overall_stats s = historySums s.turn_history := by
  suffices h : ∀ (hist : List (GameTurn α)) (acc : BucketScores),
      hist.foldl (fun total turn =>
        { red_up := total.red_up + turn.scores.red_up
          orange_up := total.orange_up + turn.scores.orange_up
          yellow_up := total.yellow_up + turn.scores.yellow_up
          red_down := total.red_down + turn.scores.red_down
          orange_down := total.orange_down + turn.scores.orange_down
          yellow_down := total.yellow_down + turn.scores.yellow_down }) acc =
      { red_up := acc.red_up + (hist.map fun t => t.scores.red_up).sum
        orange_up := acc.orange_up + (hist.map fun t => t.scores.orange_up).sum
        yellow_up := acc.yellow_up + (hist.map fun t => t.scores.yellow_up).sum
        red_down := acc.red_down + (hist.map fun t => t.scores.red_down).sum
        orange_down :=
          acc.orange_down + (hist.map fun t => t.scores.orange_down).sum
        yellow_down :=
          acc.yellow_down + (hist.map fun t => t.scores.yellow_down).sum } by
    rw [get_overall_stats, historySums, h]
    simp
  intro hist
  induction hist with
  | nil => intro acc; simp
  | cons t ts ih =>
    intro acc
    rw [List.foldl_cons, ih]
    simp [BucketScores.mk.injEq]
    omega

/-- C9 (amended): the state holds at most one active turn; once
finished, `add_anomaly` is a no-op and `finish_game` leaves no active
turn; and `get_overall_stats` is exactly the six per-bucket sums over
`turn_history` only (the active turn is excluded until archived). But
`start_new_turn` itself is unguarded: invoked on a finished state it
still creates a new turn, so its callers must check `is_finished`. -/
theorem gamestate_invariants (s s₂ : GameState α) (a : AnomalyResult α)
    (hfin : s.is_finished = true) :
    add_anomaly s a = s
    ∧ (finish_game s₂).current_turn = none
    ∧ (finish_game s₂).is_finished = true
    ∧ get_overall_stats s₂ = historySums s₂.turn_history := by
  refine ⟨?_, ?_, ?_, get_overall_stats_eq_sums s₂⟩
  · obtain ⟨ct, th, fin⟩ := s
    cases ct <;> simp_all [add_anomaly]
  · unfold finish_game
    cases s₂.current_turn <;> rfl
  · unfold finish_game
    cases s₂.current_turn <;> rfl

/-- C9 counterexample: `start_new_turn` called on a finished state still
creates a new active turn — the "once finished, no operation creates a
new turn" part fails for `start_new_turn`. -/
theorem gamestate_counterexample :
    (finish_game (GameState.mk (α := ℚ) none [] false)).is_finished = true
    ∧ (start_new_turn (finish_game (GameState.mk (α := ℚ) none [] false))
        "Generate more ones" 10 0).current_turn ≠ none := by
  exact ⟨rfl, by simp [start_new_turn, finish_game]⟩

theorem gamestate_invariants_witness :
    (GameState.mk (α := ℚ)
        (some ⟨"Generate more ones", 10, 0, ⟨1, 0, 0, 0, 0, 0⟩⟩)
        [⟨"Generate more zeros", 12, 0, ⟨0, 2, 0, 0, 0, 3⟩⟩] true).is_finished
      = true
    ∧ (add_anomaly (GameState.mk (α := ℚ)
          (some ⟨"Generate more ones", 10, 0, ⟨1, 0, 0, 0, 0, 0⟩⟩)
          [⟨"Generate more zeros", 12, 0, ⟨0, 2, 0, 0, 0, 3⟩⟩] true)
          ⟨1, 1, 1, "***", "frequency"⟩ =
        GameState.mk (α := ℚ)
          (some ⟨"Generate more ones", 10, 0, ⟨1, 0, 0, 0, 0, 0⟩⟩)
          [⟨"Generate more zeros", 12, 0, ⟨0, 2, 0, 0, 0, 3⟩⟩] true
      ∧ (finish_game (GameState.mk (α := ℚ)
          (some ⟨"x", 1, 0, ⟨0, 0, 0, 0, 0, 0⟩⟩) [] false)).current_turn = none
      ∧ (finish_game (GameState.mk (α := ℚ)
          (some ⟨"x", 1, 0, ⟨0, 0, 0, 0, 0, 0⟩⟩) [] false)).is_finished = true
      ∧ get_overall_stats (GameState.mk (α := ℚ)
          (some ⟨"x", 1, 0, ⟨0, 0, 0, 0, 0, 0⟩⟩) [] false) =
        historySums (GameState.mk (α := ℚ)
          (some ⟨"x", 1, 0, ⟨0, 0, 0, 0, 0, 0⟩⟩) [] false).turn_history) :=
  ⟨rfl, gamestate_invariants _ _ _ rfl⟩

theorem add_byte_snd_not_full (ops : NumOps α) (a : RandomnessAnalyzer α)
    (b : ℕ) (h : (a.window.add_byte b).is_full = false) :
    (add_byte ops a b).2 = [] := by
  simp [add_byte, h]

theorem add_byte_snd_full (ops : NumOps α) (a : RandomnessAnalyzer α)
    (b : ℕ) (h : (a.window.add_byte b).is_full = true) :
    (add_byte ops a b).2 =
      test_frequency ops a.sensitivity (a.window.add_byte b) (a.position + 1)
      ++ test_runs ops a.sensitivity (a.window.add_byte b) (a.position + 1)
      ++ test_chi_square ops a.sensitivity (a.window.add_byte b)
          (a.position + 1) := by
  simp [add_byte, h]

theorem feed_shift (ops : NumOps α) (bs : List ℕ) :
    ∀ (a : RandomnessAnalyzer α) (acc : List (AnomalyResult α)),
      bs.foldl (fun acc b =>
        let (a', rs) := add_byte ops acc.1 b
        (a', acc.2 ++ rs)) (a, acc) =
      ((feed ops a bs).1, acc ++ (feed ops a bs).2) := by
  induction bs with
  | nil => intro a acc; simp [feed]
  | cons b bs ih =>
    intro a acc
    rw [List.foldl_cons]
    show bs.foldl _ ((add_byte ops a b).1, acc ++ (add_byte ops a b).2) = _
    rw [ih]
    have hfc : feed ops a (b :: bs) =
        ((feed ops (add_byte ops a b).1 bs).1,
          (add_byte ops a b).2 ++ (feed ops (add_byte ops a b).1 bs).2) := by
      show bs.foldl _ ((add_byte ops a b).1, [] ++ (add_byte ops a b).2) = _
      rw [List.nil_append, ih]
    rw [hfc]
    simp

theorem feed_cons (ops : NumOps α) (a : RandomnessAnalyzer α) (b : ℕ)
    (bs : List ℕ) :
    feed ops a (b :: bs) =
      ((feed ops (add_byte ops a b).1 bs).1,
        (add_byte ops a b).2 ++ (feed ops (add_byte ops a b).1 bs).2) := by
  show bs.foldl _ ((add_byte ops a b).1, [] ++ (add_byte ops a b).2) = _
  rw [List.nil_append, feed_shift]

theorem feed_append (ops : NumOps α) (a : RandomnessAnalyzer α)
    (bs cs : List ℕ) :
    feed ops a (bs ++ cs) =
      ((feed ops (feed ops a bs).1 cs).1,
        (feed ops a bs).2 ++ (feed ops (feed ops a bs).1 cs).2) := by
  induction bs generalizing a with
  | nil =>
    show feed ops a cs = ((feed ops a cs).1, [] ++ (feed ops a cs).2)
    simp
  | cons b bs ih =>
    rw [List.cons_append, feed_cons, feed_cons, ih]
    simp

theorem feed_fst (ops : NumOps α) (a : RandomnessAnalyzer α) (bs : List ℕ) :
    (feed ops a bs).1.window = pushAll a.window bs
    ∧ (feed ops a bs).1.position = a.position + bs.length
    ∧ (feed ops a bs).1.sensitivity = a.sensitivity := by
  induction bs generalizing a with
  | nil => exact ⟨rfl, rfl, rfl⟩
  | cons b bs ih =>
    rw [feed_cons]
    obtain ⟨h1, h2, h3⟩ := ih (add_byte ops a b).1
    refine ⟨?_, ?_, ?_⟩
    · rw [h1]; rfl
    · rw [h2]
      show a.position + 1 + bs.length = a.position + (bs.length + 1)
      omega
    · rw [h3]; rfl

theorem add_byte_window_length (a : RandomnessAnalyzer α) (b : ℕ)
    (h : a.window.data.length < a.window.window_size) :
    (a.window.add_byte b).data.length = a.window.data.length + 1 := by
  rw [add_byte_data]
  simp only [lastN, List.length_drop, List.length_append,
    List.length_singleton]
  omega

theorem feed_results_nil (ops : NumOps α) (a : RandomnessAnalyzer α)
    (bs : List ℕ)
    (h : a.window.data.length + bs.length < a.window.window_size) :
    (feed ops a bs).2 = [] := by
  induction bs generalizing a with
  | nil => rfl
  | cons b bs ih =>
    rw [feed_cons]
    have hlen : (a.window.add_byte b).data.length =
        a.window.data.length + 1 := by
      apply add_byte_window_length
      simp at h
      omega
    have hnf : (a.window.add_byte b).is_full = false := by
      simp only [StatisticalWindow.is_full, hlen, add_byte_size]
      simp at h ⊢
      omega
    rw [add_byte_snd_not_full ops a b hnf]
    rw [List.nil_append]
    apply ih
    show (a.window.add_byte b).data.length + bs.length <
      (a.window.add_byte b).window_size
    rw [hlen, add_byte_size]
    simp at h
    omega

theorem flatten_replicate_replicate (n m x : ℕ) :
    (List.replicate n (List.replicate m x)).flatten = List.replicate (n * m) x := by
  induction n with
  | zero => simp
  | succ n ih =>
    rw [List.replicate_succ, List.flatten_cons, ih,
      show (n + 1) * m = m + n * m by ring, List.replicate_add]

theorem window_eq_mk (w : StatisticalWindow) : w = ⟨w.window_size, w.data⟩ := rfl

theorem feed_singleton {α : Type} [LinearOrderedField α] (ops : NumOps α)
    (a : RandomnessAnalyzer α) (b : ℕ) :
    feed ops a [b] = ((add_byte ops a b).1, (add_byte ops a b).2) := by
  rw [feed_cons]
  show ((add_byte ops a b).1, (add_byte ops a b).2 ++ []) = _
  rw [List.append_nil]

theorem sqrt_two_sq : Real.sqrt 2 ^ 2 = 2 := Real.sq_sqrt (by norm_num)

theorem twenty_sqrt_two_bounds :
    (28:ℝ) < 20 * Real.sqrt 2 ∧ 20 * Real.sqrt 2 < 29 := by
  have h2 := sqrt_two_sq
  have hnn := Real.sqrt_nonneg 2
  constructor <;> nlinarith [h2, hnn]

/-- Scenario A's full window: 100 bytes of `0xFF` expand to 800 one-bits. -/
theorem scenarioA_bits :
    (StatisticalWindow.mk 100 (List.replicate 100 255)).get_bits =
      List.replicate 800 1 := by
  show ((List.replicate 100 255).map StatisticalWindow.byteBits).flatten = _
  rw [List.map_replicate,
    show StatisticalWindow.byteBits 255 = List.replicate 8 1 by decide,
    flatten_replicate_replicate]

theorem scenarioA_bits_sum :
    ((StatisticalWindow.mk 100 (List.replicate 100 255)).get_bits).sum = 800 := by
  rw [scenarioA_bits, List.sum_replicate, smul_eq_mul, mul_one]

theorem scenarioA_bits_length :
    ((StatisticalWindow.mk 100 (List.replicate 100 255)).get_bits).length = 800 := by
  rw [scenarioA_bits, List.length_replicate]

/-- The frequency-test statistic of Scenario A's window: the code's
`z = (p̂ − 0.5)/sqrt(0.25/800)` evaluates to `20·√2 ≈ 28.28`. -/
theorem scenarioA_freq (ops : NumOps ℝ) (hs : ops.sqrt = Real.sqrt) :
    freqCandidate ops (StatisticalWindow.mk 100 (List.replicate 100 255)) 100 =
      { position := 100, z_score := 20 * Real.sqrt 2
        p_value := 2 * (1 - ops.normCdf (20 * Real.sqrt 2))
        significance_level :=
          get_significance_level (2 * (1 - ops.normCdf (20 * Real.sqrt 2)))
        test_type := "frequency" } := by
  have h2 := sqrt_two_sq
  have hne : Real.sqrt 2 ≠ 0 := by positivity
  have hse : Real.sqrt ((1:ℝ)/2 * (1 - 1/2) / 800) = (Real.sqrt 2)⁻¹ / 40 := by
    rw [show (1:ℝ)/2 * (1 - 1/2) / 800 = ((Real.sqrt 2)⁻¹ / 40)^2 by
      field_simp
      linarith [h2]]
    exact Real.sqrt_sq (by positivity)
  have hz : ((800:ℝ)/800 - 1/2) / ((Real.sqrt 2)⁻¹ / 40) = 20 * Real.sqrt 2 := by
    rw [show (800:ℝ)/800 = 1 by norm_num]
    rw [div_eq_iff (by positivity)]
    field_simp
    linarith [h2]
  simp only [freqCandidate, hs, scenarioA_bits_sum, scenarioA_bits_length]
  push_cast
  rw [hse, hz, abs_of_nonneg (by positivity : (0:ℝ) ≤ 20 * Real.sqrt 2)]

/-- The analyzer state after Scenario A's first 99 bytes. -/
theorem scenarioA_state99 (ops : NumOps ℝ) :
    (feed ops (mkAnalyzer 100 (1/20 : ℝ)) (List.replicate 99 255)).1.window =
      StatisticalWindow.mk 100 (List.replicate 99 255)
    ∧ (feed ops (mkAnalyzer 100 (1/20 : ℝ)) (List.replicate 99 255)).1.position
        = 99
    ∧ (feed ops (mkAnalyzer 100 (1/20 : ℝ))
        (List.replicate 99 255)).1.sensitivity = 1/20 := by
  obtain ⟨hw, hpos, hsen⟩ :=
    feed_fst ops (mkAnalyzer 100 (1/20 : ℝ)) (List.replicate 99 255)
  refine ⟨?_, by simpa [mkAnalyzer] using hpos, by simpa [mkAnalyzer] using hsen⟩
  rw [hw]
  have hd : (pushAll (mkAnalyzer 100 (1/20:ℝ)).window
      (List.replicate 99 255)).data = List.replicate 99 255 := by
    rw [pushAll_data _ _ (by simp [mkAnalyzer, emptyWindow])]
    rw [show (mkAnalyzer 100 (1/20:ℝ)).window.window_size = 100 from rfl,
      show (mkAnalyzer 100 (1/20:ℝ)).window.data = [] from rfl,
      List.nil_append]
    exact lastN_of_le (by simp)
  have hsz : (pushAll (mkAnalyzer 100 (1/20:ℝ)).window
      (List.replicate 99 255)).window_size = 100 := by
    rw [pushAll_size]
    rfl
  rw [window_eq_mk (pushAll _ _), hd, hsz]

theorem replicate_100_split :
    List.replicate 100 (255:ℕ) = List.replicate 99 255 ++ [255] := by
  have h := List.replicate_succ' 99 (255:ℕ)
  norm_num at h
  exact h

/-- The anomaly list Scenario A's 100th byte produces: the frequency
anomaly (with `z = 20·√2`) first, then whatever the chi-square test
yields; the runs test is skipped because the window has no zero bits. -/
theorem scenarioA_results (ops : NumOps ℝ) (hs : ops.sqrt = Real.sqrt)
    (hgate : 2 * (1 - ops.normCdf (20 * Real.sqrt 2)) < 1/20) :
    (feed ops (mkAnalyzer 100 (1/20 : ℝ)) (List.replicate 100 255)).2 =
      { position := 100, z_score := 20 * Real.sqrt 2
        p_value := 2 * (1 - ops.normCdf (20 * Real.sqrt 2))
        significance_level :=
          get_significance_level (2 * (1 - ops.normCdf (20 * Real.sqrt 2)))
        test_type := "frequency" } ::
        test_chi_square ops (1/20)
          (StatisticalWindow.mk 100 (List.replicate 100 255)) 100 := by
  obtain ⟨hw99, hpos99, hsen99⟩ := scenarioA_state99 ops
  have hwfull : (feed ops (mkAnalyzer 100 (1/20 : ℝ))
      (List.replicate 99 255)).1.window.add_byte 255 =
      StatisticalWindow.mk 100 (List.replicate 100 255) := by
    rw [hw99, window_eq_mk (StatisticalWindow.add_byte _ _), add_byte_size,
      add_byte_data]
    show (⟨100, _⟩ : StatisticalWindow) = _
    rw [lastN_of_le (by simp), ← replicate_100_split]
  have hfull : ((feed ops (mkAnalyzer 100 (1/20 : ℝ))
      (List.replicate 99 255)).1.window.add_byte 255).is_full = true := by
    rw [hwfull]
    simp [StatisticalWindow.is_full]
  have htf : test_frequency ops (1/20)
      (StatisticalWindow.mk 100 (List.replicate 100 255)) (99 + 1) =
      [{ position := 100, z_score := 20 * Real.sqrt 2
         p_value := 2 * (1 - ops.normCdf (20 * Real.sqrt 2))
         significance_level :=
           get_significance_level (2 * (1 - ops.normCdf (20 * Real.sqrt 2)))
         test_type := "frequency" }] := by
    rw [test_frequency, show (99 + 1) = 100 from rfl, scenarioA_freq ops hs]
    exact if_pos hgate
  have htr : test_runs ops (1/20)
      (StatisticalWindow.mk 100 (List.replicate 100 255)) (99 + 1) = [] := by
    rw [test_runs]
    have hrc : runsCandidate ops
        (StatisticalWindow.mk 100 (List.replicate 100 255)) (99 + 1) = none := by
      simp only [runsCandidate, scenarioA_bits_sum, scenarioA_bits_length]
      rw [if_neg (by norm_num : ¬ (800 < 2)),
        if_pos (Or.inr (by push_cast; ring))]
    rw [hrc]
  conv_lhs => rw [replicate_100_split]
  rw [feed_append, feed_singleton]
  dsimp only
  rw [feed_results_nil _ _ _ (by simp [mkAnalyzer, emptyWindow]),
    List.nil_append, add_byte_snd_full _ _ _ hfull, hwfull, hsen99, hpos99,
    htf, htr]
  simp

/-- A generic "window still filling or exactly full" state computation. -/
theorem feed_window_of_le {α : Type} [LinearOrderedField α] (ops : NumOps α)
    (N : ℕ) (s : α) (bs : List ℕ) (h : bs.length ≤ N) :
    (feed ops (mkAnalyzer N s) bs).1.window = StatisticalWindow.mk N bs
    ∧ (feed ops (mkAnalyzer N s) bs).1.position = bs.length
    ∧ (feed ops (mkAnalyzer N s) bs).1.sensitivity = s := by
  obtain ⟨hw, hpos, hsen⟩ := feed_fst ops (mkAnalyzer N s) bs
  refine ⟨?_, by simpa [mkAnalyzer] using hpos, by simpa [mkAnalyzer] using hsen⟩
  rw [hw]
  have hd : (pushAll (mkAnalyzer N s).window bs).data = bs := by
    rw [pushAll_data _ _ (by simp [mkAnalyzer, emptyWindow])]
    rw [show (mkAnalyzer N s).window.data = [] from rfl, List.nil_append]
    exact lastN_of_le h
  have hsz : (pushAll (mkAnalyzer N s).window bs).window_size = N := by
    rw [pushAll_size]
    rfl
  rw [window_eq_mk (pushAll _ _), hd, hsz]

/-- C5 (corrected): with `window_size = 100` and `sensitivity = 0.05`,
feeding 100 bytes of `0xFF` produces a frequency-test anomaly — first in
the returned list — whose p-value is the vanishing two-tailed normal
tail `2·(1 − Φ(20·√2))` and whose z-score is `20·√2 ≈ 28.28` (the code's
`z = (p̂ − 0.5)/sqrt(0.25/n)` over the `n = 800` window bits — not
`≈ +10`), and `get_summary_stats` then reports `ones_ratio = 1`. -/
theorem scenarioA_frequency_anomaly (ops : NumOps ℝ)
    (hs : ops.sqrt = Real.sqrt)
    (hgate : 2 * (1 - ops.normCdf (20 * Real.sqrt 2)) < 1/20) :
    (feed ops (mkAnalyzer 100 (1/20 : ℝ)) (List.replicate 100 255)).2.head? =
      some { position := 100, z_score := 20 * Real.sqrt 2
             p_value := 2 * (1 - ops.normCdf (20 * Real.sqrt 2))
             significance_level := get_significance_level
               (2 * (1 - ops.normCdf (20 * Real.sqrt 2)))
             test_type := "frequency" }
    ∧ (28 < 20 * Real.sqrt 2 ∧ 20 * Real.sqrt 2 < 29)
    ∧ (get_summary_stats ops
        (feed ops (mkAnalyzer 100 (1/20 : ℝ)) (List.replicate 100 255)).1).map
          (fun st => st.ones_ratio) = some 1 := by
  refine ⟨?_, twenty_sqrt_two_bounds, ?_⟩
  · rw [scenarioA_results ops hs hgate]
    rfl
  · obtain ⟨hw, -, -⟩ :=
      feed_window_of_le ops 100 (1/20 : ℝ) (List.replicate 100 255) (by simp)
    have hfull : (feed ops (mkAnalyzer 100 (1/20 : ℝ))
        (List.replicate 100 255)).1.window.is_full = true := by
      rw [hw]
      simp [StatisticalWindow.is_full]
    rw [get_summary_stats, if_pos hfull, Option.map_some', Option.some.injEq]
    dsimp only
    rw [hw, scenarioA_bits_sum, scenarioA_bits_length]
    norm_num

theorem scenarioA_frequency_anomaly_witness :
    tailOps.sqrt = Real.sqrt
    ∧ 2 * (1 - tailOps.normCdf (20 * Real.sqrt 2)) < 1/20
    ∧ ((feed tailOps (mkAnalyzer 100 (1/20 : ℝ))
          (List.replicate 100 255)).2.head? =
        some { position := 100, z_score := 20 * Real.sqrt 2
               p_value := 2 * (1 - tailOps.normCdf (20 * Real.sqrt 2))
               significance_level := get_significance_level
                 (2 * (1 - tailOps.normCdf (20 * Real.sqrt 2)))
               test_type := "frequency" }
      ∧ (28 < 20 * Real.sqrt 2 ∧ 20 * Real.sqrt 2 < 29)
      ∧ (get_summary_stats tailOps (feed tailOps (mkAnalyzer 100 (1/20 : ℝ))
            (List.replicate 100 255)).1).map
              (fun st => st.ones_ratio) = some 1) :=
  ⟨rfl, by norm_num [tailOps],
    scenarioA_frequency_anomaly tailOps rfl (by norm_num [tailOps])⟩

/-- C5 counterexample: the frequency anomaly the code actually produces
in Scenario A has z-score `20·√2 > 28`, not approximately `+10`. -/
theorem scenarioA_z_not_ten :
    ((feed tailOps (mkAnalyzer 100 (1/20 : ℝ))
        (List.replicate 100 255)).2.head?).map (fun r => r.z_score) =
      some (20 * Real.sqrt 2)
    ∧ ¬ |20 * Real.sqrt 2 - 10| ≤ 5 := by
  constructor
  · rw [scenarioA_results tailOps rfl (by norm_num [tailOps])]
    rfl
  · obtain ⟨h28, -⟩ := twenty_sqrt_two_bounds
    rw [abs_of_nonneg (by linarith)]
    intro hcon
    linarith

theorem altBytes_length : altBytes.length = 50 := by decide

theorem altBytes_split : altBytes.take 49 ++ [255] = altBytes := by decide

theorem altBytes_take_length : (altBytes.take 49).length = 49 := by decide

theorem scenarioB_bits_length :
    ((StatisticalWindow.mk 50 altBytes).get_bits).length = 400 := by decide

theorem scenarioB_bits_sum :
    ((StatisticalWindow.mk 50 altBytes).get_bits).sum = 200 := by decide

/-- Scenario B's window has 50 observed runs (each byte is one run of 8
equal bits). -/
theorem scenarioB_runs :
    countRuns ((StatisticalWindow.mk 50 altBytes).get_bits) = 50 := by decide

/-- The code's `expected = 2·n1·n0/n + 1` over the 400 window bits is
`2·200·200/400 + 1 = 201`. -/
theorem scenarioB_expected :
    runsExpected (α := ℝ) ((StatisticalWindow.mk 50 altBytes).get_bits) =
      201 := by
  rw [runsExpected, scenarioB_bits_sum, scenarioB_bits_length]
  norm_num

theorem scenarioB_variance :
    runsVariance (α := ℝ) ((StatisticalWindow.mk 50 altBytes).get_bits) =
      39800/399 := by
  rw [runsVariance, scenarioB_bits_sum, scenarioB_bits_length]
  norm_num

theorem scenarioB_runsCandidate (ops : NumOps ℝ) (hs : ops.sqrt = Real.sqrt)
    (pos : ℕ) :
    runsCandidate ops (StatisticalWindow.mk 50 altBytes) pos =
      some { position := pos
             z_score := ((50:ℝ) - 201) / Real.sqrt (39800/399)
             p_value := 2 * (1 - ops.normCdf
               |((50:ℝ) - 201) / Real.sqrt (39800/399)|)
             significance_level := get_significance_level (2 * (1 -
               ops.normCdf |((50:ℝ) - 201) / Real.sqrt (39800/399)|))
             test_type := "runs" } := by
  simp only [runsCandidate, scenarioB_bits_sum, scenarioB_bits_length,
    scenarioB_runs, scenarioB_expected, scenarioB_variance, hs]
  rw [if_neg (by norm_num : ¬ (400 < 2))]
  rw [if_neg (by push_cast; norm_num :
    ¬ (((200:ℕ):ℝ) = 0 ∨ ((400:ℕ):ℝ) - ((200:ℕ):ℝ) = 0))]
  rw [if_neg (by norm_num : ¬ ((39800:ℝ)/399 ≤ 0))]
  push_cast
  rfl

theorem scenarioB_results (ops : NumOps ℝ) (hs : ops.sqrt = Real.sqrt)
    (hgate : 2 * (1 - ops.normCdf
      |((50:ℝ) - 201) / Real.sqrt (39800/399)|) < 1/100) :
    (feed ops (mkAnalyzer 50 (1/100 : ℝ)) altBytes).2 =
      test_frequency ops (1/100) (StatisticalWindow.mk 50 altBytes) 50
      ++ [{ position := 50
            z_score := ((50:ℝ) - 201) / Real.sqrt (39800/399)
            p_value := 2 * (1 - ops.normCdf
              |((50:ℝ) - 201) / Real.sqrt (39800/399)|)
            significance_level := get_significance_level (2 * (1 -
              ops.normCdf |((50:ℝ) - 201) / Real.sqrt (39800/399)|))
            test_type := "runs" }]
      ++ test_chi_square ops (1/100) (StatisticalWindow.mk 50 altBytes) 50 := by
  obtain ⟨hw49, hpos49, hsen49⟩ := feed_window_of_le ops 50 (1/100 : ℝ)
    (altBytes.take 49) (by rw [altBytes_take_length]; norm_num)
  have hwfull : (feed ops (mkAnalyzer 50 (1/100 : ℝ))
      (altBytes.take 49)).1.window.add_byte 255 =
      StatisticalWindow.mk 50 altBytes := by
    rw [hw49, window_eq_mk (StatisticalWindow.add_byte _ _), add_byte_size,
      add_byte_data]
    show (⟨50, _⟩ : StatisticalWindow) = _
    rw [lastN_of_le (by simp [altBytes_take_length]), altBytes_split]
  have hfull : ((feed ops (mkAnalyzer 50 (1/100 : ℝ))
      (altBytes.take 49)).1.window.add_byte 255).is_full = true := by
    rw [hwfull]
    simp [StatisticalWindow.is_full, altBytes_length]
  have htr : test_runs ops (1/100) (StatisticalWindow.mk 50 altBytes) 50 =
      [{ position := 50
         z_score := ((50:ℝ) - 201) / Real.sqrt (39800/399)
         p_value := 2 * (1 - ops.normCdf
           |((50:ℝ) - 201) / Real.sqrt (39800/399)|)
         significance_level := get_significance_level (2 * (1 -
           ops.normCdf |((50:ℝ) - 201) / Real.sqrt (39800/399)|))
         test_type := "runs" }] := by
    rw [test_runs, scenarioB_runsCandidate ops hs 50]
    exact if_pos hgate
  conv_lhs => rw [← altBytes_split]
  rw [feed_append, feed_singleton]
  dsimp only
  rw [feed_results_nil _ _ _
      (by simp [mkAnalyzer, emptyWindow, altBytes_take_length]),
    List.nil_append, add_byte_snd_full _ _ _ hfull, hwfull, hsen49, hpos49,
    altBytes_take_length, show (49 + 1) = 50 from rfl, htr]

/-- C6 (corrected): with `window_size = 50` and `sensitivity = 0.01`,
feeding 50 bytes alternating `0x00`/`0xFF` produces a runs-test anomaly
with observed runs = 50, but against `expected = 2·n1·n0/n + 1 = 201`
over the 400 window bits (not ≈ 25.98); the runs test skips (returns no
anomaly) whenever `n1` or `n0` is zero or the variance is non-positive. -/
theorem scenarioB_runs_anomaly (ops : NumOps ℝ) (w' : StatisticalWindow)
    (pos' : ℕ) (sens' : ℝ) (hs : ops.sqrt = Real.sqrt)
    (hgate : 2 * (1 - ops.normCdf
      |((50:ℝ) - 201) / Real.sqrt (39800/399)|) < 1/100) :
    countRuns ((StatisticalWindow.mk 50 altBytes).get_bits) = 50
    ∧ runsExpected (α := ℝ) ((StatisticalWindow.mk 50 altBytes).get_bits) = 201
    ∧ ({ position := 50
         z_score := ((50:ℝ) - 201) / Real.sqrt (39800/399)
         p_value := 2 * (1 - ops.normCdf
           |((50:ℝ) - 201) / Real.sqrt (39800/399)|)
         significance_level := get_significance_level (2 * (1 -
           ops.normCdf |((50:ℝ) - 201) / Real.sqrt (39800/399)|))
         test_type := "runs" } : AnomalyResult ℝ) ∈
        (feed ops (mkAnalyzer 50 (1/100 : ℝ)) altBytes).2
    ∧ (((w'.get_bits.sum : ℝ) = 0
        ∨ ((w'.get_bits.length : ℝ) - (w'.get_bits.sum : ℝ)) = 0) →
        test_runs ops sens' w' pos' = [])
    ∧ (runsVariance (α := ℝ) w'.get_bits ≤ 0 →
        test_runs ops sens' w' pos' = []) := by
  refine ⟨scenarioB_runs, scenarioB_expected, ?_, ?_, ?_⟩
  · rw [scenarioB_results ops hs hgate]
    simp
  · intro hcond
    simp only [test_runs, runsCandidate]
    split_ifs with h1 h2 h3 <;> rfl
  · intro hvar
    simp only [test_runs, runsCandidate]
    split_ifs with h1 h2 h3 <;> rfl

theorem scenarioB_runs_anomaly_witness :
    tailOps.sqrt = Real.sqrt
    ∧ 2 * (1 - tailOps.normCdf
        |((50:ℝ) - 201) / Real.sqrt (39800/399)|) < 1/100
    ∧ (countRuns ((StatisticalWindow.mk 50 altBytes).get_bits) = 50
      ∧ runsExpected (α := ℝ)
          ((StatisticalWindow.mk 50 altBytes).get_bits) = 201
      ∧ ({ position := 50
           z_score := ((50:ℝ) - 201) / Real.sqrt (39800/399)
           p_value := 2 * (1 - tailOps.normCdf
             |((50:ℝ) - 201) / Real.sqrt (39800/399)|)
           significance_level := get_significance_level (2 * (1 -
             tailOps.normCdf |((50:ℝ) - 201) / Real.sqrt (39800/399)|))
           test_type := "runs" } : AnomalyResult ℝ) ∈
          (feed tailOps (mkAnalyzer 50 (1/100 : ℝ)) altBytes).2
      ∧ ((((StatisticalWindow.mk 8 [0]).get_bits.sum : ℝ) = 0
          ∨ (((StatisticalWindow.mk 8 [0]).get_bits.length : ℝ) -
              ((StatisticalWindow.mk 8 [0]).get_bits.sum : ℝ)) = 0) →
          test_runs tailOps 1 (StatisticalWindow.mk 8 [0]) 1 = [])
      ∧ (runsVariance (α := ℝ) (StatisticalWindow.mk 8 [0]).get_bits ≤ 0 →
          test_runs tailOps 1 (StatisticalWindow.mk 8 [0]) 1 = [])) :=
  ⟨rfl, by norm_num [tailOps],
    scenarioB_runs_anomaly tailOps (StatisticalWindow.mk 8 [0]) 1 1 rfl
      (by norm_num [tailOps])⟩

/-- C6 counterexample: over the window's 400-bit sequence the code's
`expected = 2·n1·n0/n + 1` is exactly 201, nowhere near the claimed
≈ 25.98 (observed runs = 50 is as claimed). -/
theorem scenarioB_expected_not_26 :
    runsExpected (α := ℝ) ((StatisticalWindow.mk 50 altBytes).get_bits) = 201
    ∧ countRuns ((StatisticalWindow.mk 50 altBytes).get_bits) = 50
    ∧ ¬ |(201:ℝ) - 25.98| ≤ 1 := by
  refine ⟨scenarioB_expected, scenarioB_runs, ?_⟩
  rw [abs_of_nonneg (by norm_num)]
  norm_num

theorem add_byte_three_tests_witness :
    0 < (mkAnalyzer 2 (1:ℚ)).window.window_size
    ∧ ((add_byte (NumOps.mk id id id) (mkAnalyzer 2 (1:ℚ)) 7).1.position =
        (mkAnalyzer 2 (1:ℚ)).position + 1
      ∧ (add_byte (NumOps.mk id id id) (mkAnalyzer 2 (1:ℚ)) 7).1.window =
          (mkAnalyzer 2 (1:ℚ)).window.add_byte 7
      ∧ ((add_byte (NumOps.mk id id id) (mkAnalyzer 2 (1:ℚ)) 7).1.window.is_full
            = false →
          (add_byte (NumOps.mk id id id) (mkAnalyzer 2 (1:ℚ)) 7).2 = [])
      ∧ ((add_byte (NumOps.mk id id id) (mkAnalyzer 2 (1:ℚ)) 7).1.window.is_full
            = true →
          (add_byte (NumOps.mk id id id) (mkAnalyzer 2 (1:ℚ)) 7).2 =
            (candidates (NumOps.mk id id id)
                ((mkAnalyzer 2 (1:ℚ)).window.add_byte 7)
                ((mkAnalyzer 2 (1:ℚ)).position + 1)).filter
              (fun r => decide (r.p_value < (mkAnalyzer 2 (1:ℚ)).sensitivity))
          ∧ ((add_byte (NumOps.mk id id id) (mkAnalyzer 2 (1:ℚ)) 7).2.map
              (fun r => r.test_type)).Sublist
                ["frequency", "runs", "chi_square"])) :=
  ⟨by decide, add_byte_three_tests (NumOps.mk id id id) (mkAnalyzer 2 (1:ℚ)) 7
    (by decide)⟩

end Thms

end RngViz
